import Mathlib

/-!
Shallow embedding of `scrape.py`: the merge/reconciliation core that
combines PsychonautWiki ("Source A") and TripSit ("Source B") substance
records into one canonical list, together with the retry helper of the
fetch layer.  Loosely-typed Python dicts become structures of optional
fields; fallible code paths (KeyError, ValueError, TypeError) become
`Except`; the in-place list mutation of the merge loop becomes explicit
state passing.
-/

instance {ε α : Type} [DecidableEq ε] [DecidableEq α] : DecidableEq (Except ε α) :=
  fun x y =>
    match x, y with
    | .ok a, .ok b =>
      if h : a = b then .isTrue (by rw [h]) else .isFalse (by simp [h])
    | .error a, .error b =>
      if h : a = b then .isTrue (by rw [h]) else .isFalse (by simp [h])
    | .ok _, .error _ => .isFalse (by simp)
    | .error _, .ok _ => .isFalse (by simp)

namespace Scrape

/-- Python `str.lower()`: lowercase character by character. -/
def pyLower (s : String) : String := String.mk (s.data.map Char.toLower)

/-- Python `str.strip()`: drop whitespace from both ends. -/
def pyStrip (s : String) : String :=
  String.mk (((s.data.dropWhile Char.isWhitespace).reverse.dropWhile
    Char.isWhitespace).reverse)

/-- Python string comparison `a <= b` on character lists: lexicographic
by code point. -/
def strLeB : List Char → List Char → Bool
  | [], _ => true
  | _ :: _, [] => false
  | a :: as, b :: bs => if a = b then strLeB as bs else decide (a < b)

/-- Python string comparison `a <= b`. -/
def pyStrLe (a b : String) : Bool := strLeB a.data b.data

/-- min/max pair as returned for dose tiers. -/
structure DoseRange where
  min : Option Int
  max : Option Int
  deriving DecidableEq, Repr

/-- min/max/units triple as returned for duration phases. -/
structure PhaseRange where
  min : Option Int
  max : Option Int
  units : Option String
  deriving DecidableEq, Repr

/-- `dose` block of a route-of-administration record. -/
structure Dose where
  units : Option String
  threshold : Option Int
  heavy : Option Int
  common : Option DoseRange
  light : Option DoseRange
  strong : Option DoseRange
  deriving DecidableEq, Repr

/-- `duration` block of a route-of-administration record. -/
structure DurationData where
  afterglow : Option PhaseRange
  comeup : Option PhaseRange
  duration : Option PhaseRange
  offset : Option PhaseRange
  onset : Option PhaseRange
  peak : Option PhaseRange
  total : Option PhaseRange
  deriving DecidableEq, Repr

/-- One route-of-administration entry (`roas` element). -/
structure Roa where
  name : String
  dose : Option Dose
  duration : Option DurationData
  deriving DecidableEq, Repr

/-- `class` block of the PsychonautWiki per-substance data. -/
structure Classes where
  chemical : Option (List String)
  psychoactive : Option (List String)
  deriving DecidableEq, Repr

/-- `tolerance` block of the PsychonautWiki per-substance data. -/
structure Tolerance where
  full : Option String
  half : Option String
  zero : Option String
  deriving DecidableEq, Repr

/-- `data` dict of a PsychonautWiki record (after `name` was popped). -/
structure PwData where
  «class» : Option Classes
  tolerance : Option Tolerance
  toxicity : Option (List String)
  addictionPotential : Option String
  crossTolerances : Option (List String)
  deriving DecidableEq, Repr

/-- One TripSit combo entry (`combos` value); `name` is the key the merge
loop writes into it. -/
structure Combo where
  name : Option String
  status : Option String
  note : Option String
  deriving DecidableEq, Repr

/-- `properties` dict of a TripSit record (the fields the merge reads). -/
structure Props where
  summary : Option String
  test_kits : Option String
  bioavailability : Option String
  deriving DecidableEq, Repr

/-- `links` dict of a TripSit record. -/
structure Links where
  experiences : Option String
  deriving DecidableEq, Repr

/-- A loosely-typed substance record from either source: every key that
the merge loop may read, each optional because Python dicts carry keys
ad hoc.  PsychonautWiki records populate `url`/`name`/`aliases`/`data`/
`roas`; TripSit records populate `name`/`pretty_name`/`aliases`/
`properties`/`links`/`combos`. -/
structure Subst where
  url : Option String
  name : Option String
  pretty_name : Option String
  aliases : Option (List String)
  properties : Option Props
  links : Option Links
  combos : Option (List (String × Combo))
  data : Option PwData
  roas : Option (List Roa)
  deriving DecidableEq, Repr

/-- The empty dict `{}` that stands in for a missing record. -/
def emptySubst : Subst :=
  { url := none, name := none, pretty_name := none, aliases := none,
    properties := none, links := none, combos := none, data := none,
    roas := none }

/-- One canonical output entry appended to `substance_data`. -/
structure Canonical where
  url : String
  experiencesUrl : Option String
  name : String
  aliases : List String
  aliasesStr : String
  summary : Option String
  reagents : Option String
  classes : Option Classes
  toxicity : Option (List String)
  addictionPotential : Option String
  tolerance : Option Tolerance
  crossTolerances : Option (List String)
  roas : List Roa
  interactions : Option (List Combo)
  deriving DecidableEq, Repr

/-- `substance_name_match(name, substance)`: check if `name` matches any
value in the keys we care about (`name`, `pretty_name` when present, any
alias), case-insensitively. -/
def substance_name_match (name : String) (substance : Subst) : Bool :=
  let lower_name := pyLower name
  (([substance.name, substance.pretty_name].filterMap
      (fun v => v.map (fun s => lower_name == pyLower s)))
    ++ (substance.aliases.getD []).map (fun a => lower_name == pyLower a)).any id

/-- `find_substance_in_data(data, name)`: first record matching `name`. -/
def find_substance_in_data (data : List Subst) (name : String) : Option Subst :=
  data.find? (fun s => substance_name_match name s)

/-- The find-and-consume step of the merge loop: locate the first record
matching `name`, and remove it from the list (`data.remove(found)`). -/
def findAndConsume (data : List Subst) (name : String) : Option Subst × List Subst :=
  match find_substance_in_data data name with
  | some s => (some s, data.erase s)
  | none => (none, data)

/-- `ts_combo_ignore`: combo keys dropped as duplicates. -/
def ts_combo_ignore : List String := ["benzos"]

/-- `ts_combo_transformations`: fixed display-name table for interaction
keys. -/
def ts_combo_transformations : List (String × String) :=
  [("lsd", "LSD"), ("mushrooms", "Mushrooms"), ("dmt", "DMT"),
   ("mescaline", "Mescaline"), ("dox", "DOx"), ("nbomes", "NBOMes"),
   ("2c-x", "2C-x"), ("2c-t-x", "2C-T-x"), ("amt", "aMT"),
   ("5-meo-xxt", "5-MeO-xxT"), ("cannabis", "Cannabis"),
   ("ketamine", "Ketamine"), ("mxe", "MXE"), ("dxm", "DXM"),
   ("pcp", "PCP"), ("nitrous", "Nitrous"), ("amphetamines", "Amphetamines"),
   ("mdma", "MDMA"), ("cocaine", "Cocaine"), ("caffeine", "Caffeine"),
   ("alcohol", "Alcohol"), ("ghb/gbl", "GHB/GBL"), ("opioids", "Opioids"),
   ("tramadol", "Tramadol"), ("benzodiazepines", "Benzodiazepines"),
   ("maois", "MAOIs"), ("ssris", "SSRIs")]

/-- Python `min(names, key=len)`: ValueError on an empty sequence, else
the first element of minimal length. -/
def pyMinByLen : List String → Except String String
  | [] => .error "ValueError: min() arg is an empty sequence"
  | x :: xs => .ok (xs.foldl (fun acc n => if n.length < acc.length then n else acc) x)

/-- The non-empty display-name candidates, in source order:
`filter(lambda n: n is not None and len(n) > 0, [pw name, ts pretty_name])`. -/
def nameCandidates (pw_substance ts_substance : Subst) : List String :=
  ([pw_substance.name, ts_substance.pretty_name].filterMap id).filter
    (fun n => n.length > 0)

/-- Display-name selection: `min(names, key=len)` over the candidates. -/
def pickName (pw_substance ts_substance : Subst) : Except String String :=
  pyMinByLen (nameCandidates pw_substance ts_substance)

/-- Ascending string sort (Python `sorted` on strings). -/
def sortStrings (l : List String) : List String :=
  List.insertionSort (fun a b => pyStrLe a b = true) l

/-- The raw alias pool before set semantics: Source A name, Source B
pretty name, both alias lists, keeping only present non-empty strings,
lowercased. -/
def aliasPool (pw_substance ts_substance : Subst) : List String :=
  ((([pw_substance.name, ts_substance.pretty_name].filterMap id)
      ++ pw_substance.aliases.getD [] ++ ts_substance.aliases.getD []).filter
    (fun n => n.length > 0)).map pyLower

/-- Alias merger: lowercased set of all names, the chosen display name
removed, sorted ascending. -/
def buildAliases (pw_substance ts_substance : Subst) (name : String) : List String :=
  sortStrings (((aliasPool pw_substance ts_substance).dedup).filter
    (fun a => a ≠ pyLower name))

/-- Normalize an empty string to an absent value
(`if not len(s): s = None`). -/
def normEmpty (s : String) : Option String :=
  if s.length = 0 then none else some s

/-- Summary merger: `ts_properties.get("summary", "").strip()`, empty
normalized to absent. -/
def extractSummary (ts_substance : Subst) : Option String :=
  normEmpty (pyStrip ((ts_substance.properties.bind Props.summary).getD ""))

/-- Reagents merger: `ts_properties.get("test-kits", "").strip()`, empty
normalized to absent. -/
def extractTestKits (ts_substance : Subst) : Option String :=
  normEmpty (pyStrip ((ts_substance.properties.bind Props.test_kits).getD ""))

/-- Character class of the regex fragment `[a-zA-Z\/]`. -/
def isRoaChar (c : Char) : Bool := c.isAlpha || c == '/'

/-- Character class of the regex fragment `[.:\s]`. -/
def isSepChar (c : Char) : Bool := c == '.' || c == ':' || c.isWhitespace

/-- Character class of the regex fragment `[0-9\.%\s\+/\-]`. -/
def isValChar (c : Char) : Bool :=
  c.isDigit || c == '.' || c == '%' || c.isWhitespace || c == '+' ||
    c == '/' || c == '-'

/-- Greedy separator run with minimal backtracking: the separator keeps
`i` characters (tried from the greedy maximum downwards, at least one)
and the value part must then match at least one character. Returns the
value run and the remainder. -/
def bioTrySep (sep rest2 : List Char) : Nat → Option (List Char × List Char)
  | 0 => none
  | i + 1 =>
    let tail := sep.drop (i + 1) ++ rest2
    let val := tail.takeWhile isValChar
    if val.isEmpty then bioTrySep sep rest2 i
    else some (val, tail.drop val.length)

/-- One match attempt of `([a-zA-Z\/]+)[.:\s]+([0-9\.%\s\+/\-]+)` at the
head of the character list. -/
def bioMatchAt (cs : List Char) : Option ((String × String) × List Char) :=
  let roa := cs.takeWhile isRoaChar
  if roa.isEmpty then none
  else
    let rest1 := cs.drop roa.length
    let sep := rest1.takeWhile isSepChar
    if sep.isEmpty then none
    else
      let rest2 := rest1.drop sep.length
      match bioTrySep sep rest2 sep.length with
      | some (val, rest) => some ((String.mk roa, String.mk val), rest)
      | none => none

/-- `re.findall` scan: try a match at each position, emit it and continue
after its end, otherwise advance one character. Fuel bounds the number of
steps; the initial fuel of one per character suffices because every step
consumes at least one character. -/
def bioFindFuel : Nat → List Char → List (String × String)
  | 0, _ => []
  | _, [] => []
  | fuel + 1, c :: cs =>
    match bioMatchAt (c :: cs) with
    | some (p, rest) => p :: bioFindFuel fuel rest
    | none => bioFindFuel fuel cs

/-- Strip the characters of `chars` from both ends (Python
`str.strip(". \t")`). -/
def stripChars (chars : List Char) (s : String) : String :=
  String.mk (((s.data.dropWhile (fun c => c ∈ chars)).reverse.dropWhile
    (fun c => c ∈ chars)).reverse)

/-- Insert-or-overwrite into an association list, keeping the position of
an existing key (Python dict assignment). -/
def assocSet (l : List (String × String)) (k v : String) : List (String × String) :=
  if l.any (fun p => p.1 == k) then
    l.map (fun p => if p.1 == k then (k, v) else p)
  else l ++ [(k, v)]

/-- Bioavailability parser: find all `route: value` fragments and build
the mapping from lowercased route name to the value stripped of trailing
dots, spaces and tabs. -/
def ts_parse_bioavailability (s : String) : List (String × String) :=
  if s.length = 0 then []
  else
    (bioFindFuel s.data.length s.data).foldl
      (fun acc p => assocSet acc (pyLower p.1) (stripChars ['.', ' ', '\t'] p.2))
      []

/-- URL merger: `pw_substance.get("url") or
f"https://drugs.tripsit.me/{ts_substance['name']}"`; the fallback indexes
the TripSit record directly and raises KeyError when it has no name. -/
def tsUrlFallback (ts_substance : Subst) : Except String String :=
  match ts_substance.name with
  | some n => .ok ("https://drugs.tripsit.me/" ++ n)
  | none => .error "KeyError: name"

def mergeUrl (pwUrl : Option String) (ts_substance : Subst) : Except String String :=
  match pwUrl with
  | some u => if u.length = 0 then tsUrlFallback ts_substance else .ok u
  | none => tsUrlFallback ts_substance

/-- Rename one combo entry via the fixed display-name table; a key
outside the table raises KeyError. -/
def applyComboName (k : String) (c : Combo) : Except String Combo :=
  match ts_combo_transformations.lookup k with
  | some pretty => .ok { c with name := some pretty }
  | none => .error ("KeyError: " ++ k)

/-- The interaction accumulation loop over the combo entries: ignored
keys are skipped, every other key is renamed via the table (KeyError on
an unknown key). -/
def buildInteractions : List (String × Combo) → Except String (List Combo)
  | [] => .ok []
  | (k, c) :: rest =>
    if k ∈ ts_combo_ignore then buildInteractions rest
    else do
      let c' ← applyComboName k c
      let restI ← buildInteractions rest
      .ok (c' :: restI)

/-- The in-place update the loop performs on the combo dict values:
`combo_data["name"] = ts_combo_transformations[key]` for every
non-ignored entry. -/
def updateComboEntry (kc : String × Combo) : String × Combo :=
  if kc.1 ∈ ts_combo_ignore then kc
  else
    match ts_combo_transformations.lookup kc.1 with
    | some pretty => (kc.1, { kc.2 with name := some pretty })
    | none => kc

/-- Interactions merger: absent (or falsy empty) combo dict gives absent
interactions; otherwise rename and collect the non-ignored entries and
sort them by display name. Returns the transformed list together with
the Source B record as it stands after the loop's in-place writes. -/
def mergeInteractions (ts_substance : Subst) :
    Except String (Option (List Combo) × Subst) :=
  match ts_substance.combos with
  | none => .ok (none, ts_substance)
  | some [] => .ok (none, ts_substance)
  | some cs => do
    let interactions ← buildInteractions cs
    .ok (some (List.insertionSort
        (fun a b : Combo => pyStrLe (a.name.getD "") (b.name.getD "") = true)
        interactions),
      { ts_substance with combos := some (cs.map updateComboEntry) })

/-- Route filter: drop every route whose `duration` is null. -/
def durationFilter (roas : List Roa) : List Roa :=
  roas.filter (fun r => r.duration.isSome)

/-- The merge body for one name once at least one source yielded a
record (lines 364-480 of the loop): runs every field merger in source
order and either emits one canonical record or skips it when the
filtered route list is empty. Errors are the Python exceptions
(KeyError on the URL fallback or an unknown combo key, ValueError on an
empty display-name candidate list). -/
def mergeFound (pw_substance ts_substance : Subst) :
    Except String (Option Canonical) := do
  let ts_properties := ts_substance.properties.getD
    { summary := none, test_kits := none, bioavailability := none }
  let url ← mergeUrl pw_substance.url ts_substance
  let ts_links := ts_substance.links.getD { experiences := none }
  let experiences_url := ts_links.experiences
  let name ← pickName pw_substance ts_substance
  let aliases := buildAliases pw_substance ts_substance name
  let summary := normEmpty (pyStrip (ts_properties.summary.getD ""))
  let test_kits := normEmpty (pyStrip (ts_properties.test_kits.getD ""))
  let _ts_bioavailability :=
    ts_parse_bioavailability (pyStrip (ts_properties.bioavailability.getD ""))
  let pw_data := pw_substance.data.getD
    { «class» := none, tolerance := none, toxicity := none,
      addictionPotential := none, crossTolerances := none }
  let classes := pw_data.«class»
  let toxicity := pw_data.toxicity
  let addiction_potential := pw_data.addictionPotential
  let tolerance := pw_data.tolerance
  let cross_tolerances := pw_data.crossTolerances
  let pw_roas := pw_substance.roas.getD []
  let interactionsPair ← mergeInteractions ts_substance
  let interactions := interactionsPair.1
  let roas := durationFilter pw_roas
  if roas.length < 1 then
    .ok none
  else
    .ok (some
      { url := url, experiencesUrl := experiences_url, name := name,
        aliases := aliases, aliasesStr := String.intercalate "," aliases,
        summary := summary, reagents := test_kits, classes := classes,
        toxicity := toxicity, addictionPotential := addiction_potential,
        tolerance := tolerance, crossTolerances := cross_tolerances,
        roas := roas, interactions := interactions })

/-- One iteration of the merge loop at `name`: find-and-consume against
both source lists, skip when neither source yielded a record, otherwise
merge the found records (a missing side becomes the empty record). -/
def mergeName (pw_substance_data ts_substances_data : List Subst) (name : String) :
    Except String (Option Canonical × List Subst × List Subst) :=
  match findAndConsume pw_substance_data name,
      findAndConsume ts_substances_data name with
  | (none, pwRest), (none, tsRest) => .ok (none, pwRest, tsRest)
  | (pwF, pwRest), (tsF, tsRest) =>
    (mergeFound (pwF.getD emptySubst) (tsF.getD emptySubst)).map
      (fun c => (c, pwRest, tsRest))

/-- `all_substance_names`: the sorted set of all distinct lowercased
primary names appearing in either source list. -/
def all_substance_names (pw_substance_data ts_substances_data : List Subst) :
    List String :=
  sortStrings
    ((pw_substance_data.map (fun s => pyLower (s.name.getD ""))
      ++ ts_substances_data.map (fun s => pyLower (s.name.getD ""))).dedup)

/-- The merge loop over a given name sequence, appending emitted records
in iteration order. -/
def reconcileFrom (pw_substance_data ts_substances_data : List Subst) :
    List String → Except String (List Canonical)
  | [] => .ok []
  | n :: rest => do
    let r ← mergeName pw_substance_data ts_substances_data n
    let out ← reconcileFrom r.2.1 r.2.2 rest
    .ok (r.1.toList ++ out)

/-- The full reconciliation: iterate the sorted name set and collect the
emitted canonical records. -/
def reconcile (pw_substance_data ts_substances_data : List Subst) :
    Except String (List Canonical) :=
  reconcileFrom pw_substance_data ts_substances_data
    (all_substance_names pw_substance_data ts_substances_data)

/-- Ghost-annotated merge loop: identical to `reconcileFrom` but pairs
every emitted record with the iteration name that produced it. -/
def reconcileFromA (pw_substance_data ts_substances_data : List Subst) :
    List String → Except String (List (String × Canonical))
  | [] => .ok []
  | n :: rest => do
    let r ← mergeName pw_substance_data ts_substances_data n
    let out ← reconcileFromA r.2.1 r.2.2 rest
    .ok ((r.1.map (fun c => (n, c))).toList ++ out)

/-- Ghost-annotated reconciliation. -/
def reconcileA (pw_substance_data ts_substances_data : List Subst) :
    Except String (List (String × Canonical)) :=
  reconcileFromA pw_substance_data ts_substances_data
    (all_substance_names pw_substance_data ts_substances_data)

/-- `try_three_times` loop body: `f i` is the outcome of attempt `i`,
`remaining` counts the iterations the `while attempt < 3` guard still
allows. Returns the result (absent when every attempt failed), the
number of attempts made and the number of one-second sleeps performed
(one after each failure). -/
def try_three_times_go {α : Type} (f : Nat → Except String α) :
    Nat → Nat → Option α × Nat × Nat
  | _, 0 => (none, 0, 0)
  | attempt, remaining + 1 =>
    match f attempt with
    | .ok v => (some v, 1, 0)
    | .error _ =>
      let r := try_three_times_go f (attempt + 1) remaining
      (r.1, r.2.1 + 1, r.2.2 + 1)

/-- `try_three_times(func)`: retry the call up to three times, sleeping
one second after each failure, and fall off the loop (returning `None`)
when every attempt failed. -/
def try_three_times {α : Type} (f : Nat → Except String α) :
    Option α × Nat × Nat :=
  try_three_times_go f 0 3

/-- Python `len(x)` on an optional list: TypeError when `x` is `None`. -/
def pyLen {α : Type} : Option (List α) → Except String Nat
  | some l => .ok l.length
  | none => .error "TypeError: object of type NoneType has no len()"

/-- The per-substance query call site: `data = try_three_times(...)`
immediately followed by `len(data)`; when every attempt failed the
`len` call raises, which the surrounding handler turns into `exit(1)`. -/
def per_substance_query_len {α : Type} (f : Nat → Except String (List α)) :
    Except String Nat :=
  pyLen (try_three_times f).1

/-! Concrete records used to exercise the definitions. -/

/-- A duration block with every phase absent (still non-null as a whole). -/
def durW : DurationData :=
  { afterglow := none, comeup := none, duration := none, offset := none,
    onset := none, peak := none, total := none }

/-- An oral route with non-null duration data. -/
def roaW : Roa := { name := "Oral", dose := none, duration := some durW }

/-- Source A record whose primary name is `0Z`. -/
def cex1PwA : Subst :=
  { emptySubst with name := some "0Z", url := some "u1", roas := some [roaW] }

/-- Source A record whose primary name is `A`. -/
def cex1PwB : Subst :=
  { emptySubst with name := some "A", url := some "u2", roas := some [roaW] }

/-- Source B record whose primary name is `0z` and pretty name is `A`. -/
def cex1Ts : Subst :=
  { emptySubst with name := some "0z", pretty_name := some "A" }

/-- A combo entry before the merge loop touches it. -/
def cex2Combo : Combo := { name := none, status := some "caution", note := none }

/-- Source B record carrying one combo entry under the key `lsd`. -/
def cex2Ts : Subst :=
  { emptySubst with name := some "q", combos := some [("lsd", cex2Combo)] }

/-- The same combo entry after the loop wrote its display name. -/
def cex2Combo' : Combo :=
  { name := some "LSD", status := some "caution", note := none }

/-- The Source B record as it stands after the interactions merger ran. -/
def cex2Ts' : Subst := { cex2Ts with combos := some [("lsd", cex2Combo')] }

/-- Source B record whose pretty name is the empty string. -/
def cex3TsEmptyPretty : Subst :=
  { emptySubst with name := some "x", pretty_name := some "" }

/-- Source B record carrying a combo key outside the display-name table. -/
def cex3TsBadKey : Subst :=
  { emptySubst with
      name := some "q2",
      combos := some [("weird", { name := none, status := none, note := none })] }

/-- A point query that fails on every attempt. -/
def cex4Fail : Nat → Except String (List Nat) := fun _ => .error "network error"

/-- A record matched both by its primary name and by an alias. -/
def cex5R : Subst := { emptySubst with name := some "x", aliases := some ["y"] }

/-- Source A record named `LSD`. -/
def cex7Pw : Subst := { emptySubst with name := some "LSD" }

/-- Source B record with pretty name `Acid`. -/
def cex7Ts : Subst := { emptySubst with pretty_name := some "Acid" }

/-- Source A record with an alias list, for the alias-union merger. -/
def cex8Pw : Subst :=
  { emptySubst with
      name := some "Foo", url := some "u", roas := some [roaW],
      aliases := some ["Bar", "BAZ"] }

/-- Source B record with a pretty name and aliases. -/
def cex8Ts : Subst :=
  { emptySubst with pretty_name := some "foo", aliases := some ["bar"] }

/-- Source A record emitted unchanged by the merge. -/
def cex6Pw : Subst :=
  { emptySubst with name := some "Foo", url := some "u", roas := some [roaW] }

/-- The canonical record `reconcile [cex6Pw] []` emits. -/
def cex6Out : Canonical :=
  { url := "u", experiencesUrl := none, name := "Foo", aliases := [],
    aliasesStr := "", summary := none, reagents := none, classes := none,
    toxicity := none, addictionPotential := none, tolerance := none,
    crossTolerances := none, roas := [roaW], interactions := none }

/-- The canonical record `mergeFound cex8Pw cex8Ts` emits. -/
def cex8Out : Canonical :=
  { url := "u", experiencesUrl := none, name := "Foo",
    aliases := ["bar", "baz"], aliasesStr := "bar,baz", summary := none,
    reagents := none, classes := none, toxicity := none,
    addictionPotential := none, tolerance := none, crossTolerances := none,
    roas := [roaW], interactions := none }

/-- The first record `reconcile [cex1PwA, cex1PwB] [cex1Ts]` emits. -/
def cex1OutA : Canonical :=
  { url := "u1", experiencesUrl := none, name := "A", aliases := ["0z"],
    aliasesStr := "0z", summary := none, reagents := none, classes := none,
    toxicity := none, addictionPotential := none, tolerance := none,
    crossTolerances := none, roas := [roaW], interactions := none }

/-- The second record `reconcile [cex1PwA, cex1PwB] [cex1Ts]` emits. -/
def cex1OutB : Canonical :=
  { url := "u2", experiencesUrl := none, name := "A", aliases := [],
    aliasesStr := "", summary := none, reagents := none, classes := none,
    toxicity := none, addictionPotential := none, tolerance := none,
    crossTolerances := none, roas := [roaW], interactions := none }

/-! General helper lemmas. -/

/-- A string has positive length exactly when it is non-empty. -/
theorem strLenPos (s : String) (h : s ≠ "") : 0 < s.length := by
  cases s with
  | mk data =>
    cases data with
    | nil => exact absurd rfl h
    | cons c cs => simp [String.length]

/-- A string has positive length iff it is non-empty. -/
theorem strLenPosIff (s : String) : 0 < s.length ↔ s ≠ "" := by
  cases s with
  | mk data =>
    cases data with
    | nil => simp [String.length]
    | cons c cs =>
      refine iff_of_true (by simp [String.length]) ?_
      intro h
      exact List.cons_ne_nil c cs (congrArg String.data h)

/-- The code-point comparison is total. -/
theorem strLeB_total : ∀ as bs : List Char,
    strLeB as bs = true ∨ strLeB bs as = true
  | [], [] => Or.inl rfl
  | [], _ :: _ => Or.inl rfl
  | _ :: _, [] => Or.inr rfl
  | a :: as, b :: bs => by
    by_cases h : a = b
    · subst h
      simpa [strLeB] using strLeB_total as bs
    · rcases lt_or_gt_of_ne h with hlt | hgt
      · exact Or.inl (by simp [strLeB, h, hlt])
      · refine Or.inr ?_
        simp [strLeB, Ne.symm h, hgt]

/-- The code-point comparison is transitive. -/
theorem strLeB_trans : ∀ as bs cs : List Char, strLeB as bs = true →
    strLeB bs cs = true → strLeB as cs = true
  | [], _, _, _, _ => rfl
  | _ :: _, [], _, h1, _ => by simp [strLeB] at h1
  | _ :: _, _ :: _, [], _, h2 => by simp [strLeB] at h2
  | a :: as, b :: bs, c :: cs, h1, h2 => by
    by_cases hab : a = b
    · subst hab
      simp [strLeB] at h1
      by_cases hac : a = c
      · subst hac
        simp [strLeB] at h2 ⊢
        exact strLeB_trans as bs cs h1 h2
      · simpa [strLeB, hac] using h2
    · simp [strLeB, hab] at h1
      by_cases hbc : b = c
      · subst hbc
        simp [strLeB, hab]
        exact h1
      · simp [strLeB, hbc] at h2
        have hac : a < c := lt_trans h1 h2
        simp [strLeB, ne_of_lt hac, hac]

/-- The code-point comparison is antisymmetric. -/
theorem strLeB_antisymm : ∀ as bs : List Char, strLeB as bs = true →
    strLeB bs as = true → as = bs
  | [], [], _, _ => rfl
  | [], _ :: _, _, h2 => by simp [strLeB] at h2
  | _ :: _, [], h1, _ => by simp [strLeB] at h1
  | a :: as, b :: bs, h1, h2 => by
    by_cases hab : a = b
    · subst hab
      simp [strLeB] at h1 h2
      rw [strLeB_antisymm as bs h1 h2]
    · simp [strLeB, hab] at h1
      simp [strLeB, Ne.symm hab] at h2
      exact absurd h2 (not_lt_of_gt h1)

instance : IsTotal String (fun a b => pyStrLe a b = true) :=
  ⟨fun a b => strLeB_total a.data b.data⟩

instance : IsTrans String (fun a b => pyStrLe a b = true) :=
  ⟨fun a b c => strLeB_trans a.data b.data c.data⟩

/-- The string comparison is antisymmetric. -/
theorem pyStrLe_antisymm (a b : String) (h1 : pyStrLe a b = true)
    (h2 : pyStrLe b a = true) : a = b := by
  cases a with
  | mk da =>
    cases b with
    | mk db =>
      rw [strLeB_antisymm da db h1 h2]

/-- The ascending sort really sorts. -/
theorem sortStrings_sorted (l : List String) :
    (sortStrings l).Pairwise (fun a b => pyStrLe a b = true) :=
  List.sorted_insertionSort _ l

/-- The ascending sort permutes its input. -/
theorem sortStrings_perm (l : List String) : (sortStrings l).Perm l :=
  List.perm_insertionSort _ l

/-- The first component of find-and-consume is the plain find. -/
theorem findAndConsume_fst (L : List Subst) (n : String) :
    (findAndConsume L n).1 = find_substance_in_data L n := by
  unfold findAndConsume
  cases find_substance_in_data L n <;> simp

/-- Membership in the raw alias pool, unfolded to the four sources. -/
theorem mem_aliasPool (pw ts : Subst) (a : String) :
    a ∈ aliasPool pw ts ↔ ∃ s,
      ((pw.name = some s ∨ ts.pretty_name = some s) ∨
        s ∈ pw.aliases.getD [] ∨ s ∈ ts.aliases.getD []) ∧
      s ≠ "" ∧ a = pyLower s := by
  simp [aliasPool, List.mem_filter, List.mem_map, List.mem_append,
    List.mem_filterMap, strLenPosIff, decide_eq_true_eq]
  aesop

/-- Membership in the merged alias list. -/
theorem buildAliases_mem (pw ts : Subst) (nm a : String) :
    a ∈ buildAliases pw ts nm ↔
      ((∃ s, ((pw.name = some s ∨ ts.pretty_name = some s) ∨
          s ∈ pw.aliases.getD [] ∨ s ∈ ts.aliases.getD []) ∧ s ≠ "" ∧
          a = pyLower s) ∧ a ≠ pyLower nm) := by
  rw [buildAliases, (sortStrings_perm _).mem_iff, List.mem_filter,
    List.mem_dedup, mem_aliasPool]
  simp [decide_eq_true_eq, and_comm]

/-- Inversion of a successful emitting run of the field mergers: the
emitted record is determined by the three fallible mergers and the
filtered route list is non-empty. -/
theorem mergeFound_ok_some (pw ts : Subst) (c : Canonical)
    (h : mergeFound pw ts = .ok (some c)) :
    ∃ nm, pickName pw ts = .ok nm ∧ c.name = nm ∧
      c.aliases = buildAliases pw ts nm ∧
      c.roas = durationFilter (pw.roas.getD []) ∧ c.roas ≠ [] := by
  cases hu : mergeUrl pw.url ts with
  | error e => simp [mergeFound, hu, Bind.bind, Except.bind] at h
  | ok url =>
  cases hp : pickName pw ts with
  | error e => simp [mergeFound, hu, hp, Bind.bind, Except.bind] at h
  | ok nm =>
  cases hi : mergeInteractions ts with
  | error e => simp [mergeFound, hu, hp, hi, Bind.bind, Except.bind] at h
  | ok ip =>
  by_cases hlen : (durationFilter (pw.roas.getD [])).length < 1
  · simp [mergeFound, hu, hp, hi, hlen, Bind.bind, Except.bind] at h
  · simp [mergeFound, hu, hp, hi, hlen, Bind.bind, Except.bind] at h
    subst h
    refine ⟨nm, rfl, rfl, rfl, rfl, ?_⟩
    intro habs
    have h0 : durationFilter (pw.roas.getD []) = [] := habs
    rw [h0] at hlen
    simp at hlen

/-- Inversion of an emitting merge-loop iteration: the emitted record
comes from a matched Source A record whose filtered route list it
carries. -/
theorem mergeName_emitted (pwL tsL : List Subst) (n : String) (c : Canonical)
    (l1 l2 : List Subst)
    (h : mergeName pwL tsL n = .ok (some c, l1, l2)) :
    ∃ p, find_substance_in_data pwL n = some p ∧
      c.roas = durationFilter (p.roas.getD []) ∧ c.roas ≠ [] := by
  rcases hP : findAndConsume pwL n with ⟨pwF, pwRest⟩
  rcases hT : findAndConsume tsL n with ⟨tsF, tsRest⟩
  unfold mergeName at h
  rw [hP, hT] at h
  have hfind : find_substance_in_data pwL n = pwF := by
    rw [← findAndConsume_fst, hP]
  cases pwF with
  | none =>
    cases tsF with
    | none => simp at h
    | some tsS =>
      dsimp only [Option.getD_none, Option.getD_some] at h
      cases hm : mergeFound emptySubst tsS with
      | error e => rw [hm] at h; simp [Except.map] at h
      | ok v =>
        rw [hm] at h
        simp [Except.map] at h
        obtain ⟨hv, -, -⟩ := h
        obtain ⟨nm, -, -, -, hroas, hne⟩ :=
          mergeFound_ok_some emptySubst tsS c (by rw [hm, hv])
        rw [hroas] at hne
        simp [emptySubst, durationFilter] at hne
  | some p =>
    have hmf : (mergeFound p (tsF.getD emptySubst)).map
        (fun c => (c, pwRest, tsRest)) = .ok (some c, l1, l2) := by
      cases tsF <;> (dsimp only [Option.getD_none, Option.getD_some] at h; exact h)
    cases hm : mergeFound p (tsF.getD emptySubst) with
    | error e => rw [hm] at hmf; simp [Except.map] at hmf
    | ok v =>
      rw [hm] at hmf
      simp [Except.map] at hmf
      obtain ⟨hv, -, -⟩ := hmf
      obtain ⟨nm, -, -, -, hroas, hne⟩ :=
        mergeFound_ok_some p (tsF.getD emptySubst) c (by rw [hm, hv])
      exact ⟨p, hfind, hroas, hne⟩

/-- Every record emitted along a name sequence has a non-empty filtered
route list. -/
theorem reconcileFrom_roas :
    ∀ (ns : List String) (pwL tsL : List Subst) (out : List Canonical),
      reconcileFrom pwL tsL ns = .ok out → ∀ c ∈ out, c.roas ≠ [] := by
  intro ns
  induction ns with
  | nil =>
    intro pwL tsL out h c hc
    simp [reconcileFrom] at h
    subst h
    simp at hc
  | cons n rest ih =>
    intro pwL tsL out h c hc
    cases hm : mergeName pwL tsL n with
    | error e => simp [reconcileFrom, hm, Bind.bind, Except.bind] at h
    | ok r =>
      obtain ⟨copt, l1, l2⟩ := r
      cases hr : reconcileFrom l1 l2 rest with
      | error e => simp [reconcileFrom, hm, hr, Bind.bind, Except.bind] at h
      | ok out2 =>
        simp [reconcileFrom, hm, hr, Bind.bind, Except.bind] at h
        subst h
        rcases List.mem_append.mp hc with hc1 | hc2
        · cases copt with
          | none => simp at hc1
          | some c0 =>
            simp at hc1
            subst hc1
            obtain ⟨p, -, -, hne⟩ := mergeName_emitted pwL tsL n c l1 l2 hm
            exact hne
        · exact ih l1 l2 out2 hr c hc2

/-- The plain loop is the ghost-annotated loop with the names dropped. -/
theorem reconcileFrom_eq_mapA :
    ∀ (ns : List String) (pwL tsL : List Subst),
      reconcileFrom pwL tsL ns =
        (reconcileFromA pwL tsL ns).map (List.map Prod.snd) := by
  intro ns
  induction ns with
  | nil => intro pwL tsL; simp [reconcileFrom, reconcileFromA, Except.map]
  | cons n rest ih =>
    intro pwL tsL
    cases hm : mergeName pwL tsL n with
    | error e =>
      simp [reconcileFrom, reconcileFromA, hm, Bind.bind, Except.bind,
        Except.map]
    | ok r =>
      obtain ⟨copt, l1, l2⟩ := r
      cases hr : reconcileFromA l1 l2 rest with
      | error e =>
        have hih := ih l1 l2
        rw [hr] at hih
        simp [reconcileFrom, reconcileFromA, hm, hr, Bind.bind, Except.bind,
          Except.map, hih]
      | ok outA =>
        have hih := ih l1 l2
        rw [hr] at hih
        simp [reconcileFrom, reconcileFromA, hm, hr, Bind.bind, Except.bind,
          Except.map, hih]
        cases copt <;> simp

/-- The iteration names of the emitted records form a sublist of the
name sequence. -/
theorem reconcileFromA_fst_sublist :
    ∀ (ns : List String) (pwL tsL : List Subst)
      (out : List (String × Canonical)),
      reconcileFromA pwL tsL ns = .ok out →
        (out.map Prod.fst).Sublist ns := by
  intro ns
  induction ns with
  | nil =>
    intro pwL tsL out h
    simp [reconcileFromA] at h
    subst h
    simp
  | cons n rest ih =>
    intro pwL tsL out h
    cases hm : mergeName pwL tsL n with
    | error e => simp [reconcileFromA, hm, Bind.bind, Except.bind] at h
    | ok r =>
      obtain ⟨copt, l1, l2⟩ := r
      cases hr : reconcileFromA l1 l2 rest with
      | error e => simp [reconcileFromA, hm, hr, Bind.bind, Except.bind] at h
      | ok outA =>
        simp [reconcileFromA, hm, hr, Bind.bind, Except.bind] at h
        subst h
        have hsub := ih l1 l2 outA hr
        cases copt with
        | none => simpa using hsub.cons n
        | some c0 => simpa using hsub.cons₂ n

/-- The iteration name set is strictly ascending and duplicate-free. -/
theorem all_substance_names_pairwise (pwL tsL : List Subst) :
    (all_substance_names pwL tsL).Pairwise
      (fun a b => pyStrLe a b = true ∧ a ≠ b) := by
  have h1 := sortStrings_sorted ((pwL.map (fun s => pyLower (s.name.getD ""))
    ++ tsL.map (fun s => pyLower (s.name.getD ""))).dedup)
  have hnd : (all_substance_names pwL tsL).Nodup := by
    rw [all_substance_names, (sortStrings_perm _).nodup_iff]
    exact List.nodup_dedup _
  exact List.Pairwise.and h1 hnd

/-- The iteration name set holds exactly the lowercased primary names
of both source lists. -/
theorem all_substance_names_mem (pwL tsL : List Subst) (n : String) :
    n ∈ all_substance_names pwL tsL ↔
      ∃ s, (s ∈ pwL ∨ s ∈ tsL) ∧ pyLower (s.name.getD "") = n := by
  rw [all_substance_names, (sortStrings_perm _).mem_iff, List.mem_dedup]
  simp [List.mem_append, List.mem_map]
  aesop

/-- The bound on retries: at most `remaining` attempts and sleeps. -/
theorem try_three_times_go_le {α : Type} (f : Nat → Except String α) :
    ∀ remaining attempt, (try_three_times_go f attempt remaining).2.1 ≤ remaining ∧
      (try_three_times_go f attempt remaining).2.2 ≤ remaining := by
  intro remaining
  induction remaining with
  | zero => intro attempt; simp [try_three_times_go]
  | succ k ih =>
    intro attempt
    cases hf : f attempt with
    | ok v => simp [try_three_times_go, hf]
    | error e =>
      have := ih (attempt + 1)
      simp [try_three_times_go, hf]
      omega

/-- The interaction loop succeeds exactly when every non-ignored combo
key is in the display-name table. -/
theorem buildInteractions_ok_iff (cs : List (String × Combo)) :
    (∃ l, buildInteractions cs = .ok l) ↔
      ∀ kc ∈ cs, kc.1 ∈ ts_combo_ignore ∨
        (ts_combo_transformations.lookup kc.1).isSome = true := by
  induction cs with
  | nil => exact ⟨fun _ => by simp, fun _ => ⟨[], rfl⟩⟩
  | cons kc rest ih =>
    obtain ⟨k, c⟩ := kc
    rw [List.forall_mem_cons]
    by_cases hig : k ∈ ts_combo_ignore
    · have hunf : buildInteractions ((k, c) :: rest) = buildInteractions rest := by
        simp [buildInteractions, hig]
      rw [hunf]
      constructor
      · intro h
        exact ⟨Or.inl hig, ih.mp h⟩
      · intro h
        exact ih.mpr h.2
    · cases hl : ts_combo_transformations.lookup k with
      | none =>
        have hunf : buildInteractions ((k, c) :: rest) =
            .error ("KeyError: " ++ k) := by
          simp [buildInteractions, hig, applyComboName, hl, Bind.bind, Except.bind]
        constructor
        · rintro ⟨l, hlk⟩
          rw [hunf] at hlk
          exact absurd hlk (by simp)
        · rintro ⟨h1, -⟩
          rcases h1 with h1 | h1
          · exact absurd h1 hig
          · exact absurd h1 (by simp)
      | some p =>
        cases hr : buildInteractions rest with
        | error e =>
          have hunf : buildInteractions ((k, c) :: rest) = .error e := by
            simp [buildInteractions, hig, applyComboName, hl, hr, Bind.bind,
              Except.bind]
          constructor
          · rintro ⟨l, hlk⟩
            rw [hunf] at hlk
            exact absurd hlk (by simp)
          · rintro ⟨-, h2⟩
            obtain ⟨l, hlk⟩ := ih.mpr h2
            rw [hr] at hlk
            exact absurd hlk (by simp)
        | ok l2 =>
          have hunf : buildInteractions ((k, c) :: rest) =
              .ok ({ c with name := some p } :: l2) := by
            simp [buildInteractions, hig, applyComboName, hl, hr, Bind.bind,
              Except.bind]
          constructor
          · intro _
            exact ⟨Or.inr rfl, ih.mp ⟨l2, hr⟩⟩
          · intro _
            exact ⟨_, hunf⟩

/-! Claim theorems. -/

/-- C9 (confirmed): the resolver matches a name exactly when it equals,
case-insensitively, the record primary name, the pretty name when
present, or some alias; any unrelated name is rejected. -/
theorem substance_name_match_spec (name : String) (s : Subst) :
    substance_name_match name s = true ↔
      ((∃ v, s.name = some v ∧ pyLower name = pyLower v) ∨
       (∃ v, s.pretty_name = some v ∧ pyLower name = pyLower v) ∨
       (∃ a ∈ s.aliases.getD [], pyLower name = pyLower a)) := by
  cases hn : s.name <;> cases hp : s.pretty_name <;>
    simp [substance_name_match, hn, hp, List.any_eq_true, List.any_map,
      Function.comp]

/-- C5 (confirmed): consume-once. When a record occurs once in a list
and a first find-and-consume call returns it, a second find-and-consume
against the leftover list can never return that record again, whatever
the second name is. -/
theorem findAndConsume_consume_once (L : List Subst) (n1 n2 : String) (r : Subst)
    (hne : n1 ≠ n2)
    (hm1 : substance_name_match n1 r = true)
    (hm2 : substance_name_match n2 r = true)
    (hcount : L.count r = 1)
    (h1 : (findAndConsume L n1).1 = some r) :
    ¬ (findAndConsume (findAndConsume L n1).2 n2).1 = some r := by
  intro h2
  have hL2 : (findAndConsume L n1).2 = L.erase r := by
    cases hf : find_substance_in_data L n1 with
    | none => simp [findAndConsume, hf] at h1
    | some s =>
      simp [findAndConsume, hf] at h1
      simp [findAndConsume, hf, h1]
  rw [hL2] at h2
  have hmem : r ∈ L.erase r := by
    cases hf : find_substance_in_data (L.erase r) n2 with
    | none => simp [findAndConsume, hf] at h2
    | some s =>
      simp [findAndConsume, hf] at h2
      subst h2
      unfold find_substance_in_data at hf
      exact List.mem_of_find?_eq_some hf
  have hz : (L.erase r).count r = 0 := by
    rw [List.count_erase_self, hcount]
  rw [List.count_eq_zero] at hz
  exact hz hmem

/-- C5 witness: a record matched by its primary name `x` and its alias
`y` is consumed by the first call and unavailable to the second. -/
theorem findAndConsume_consume_once_witness :
    ("x" : String) ≠ "y" ∧ substance_name_match "x" cex5R = true ∧
    substance_name_match "y" cex5R = true ∧ [cex5R].count cex5R = 1 ∧
    (findAndConsume [cex5R] "x").1 = some cex5R ∧
    ¬ (findAndConsume (findAndConsume [cex5R] "x").2 "y").1 = some cex5R := by
  refine ⟨by decide, by decide, by decide, by decide, by decide, ?_⟩
  exact findAndConsume_consume_once [cex5R] "x" "y" cex5R (by decide)
    (by decide) (by decide) (by decide) (by decide)

/-- C7 (confirmed): the chosen display name is the shortest non-empty
candidate among the Source A name and the Source B pretty name; on a
length tie the first-occurring candidate, the Source A name, wins. -/
theorem pickName_shortest (pw_substance ts_substance : Subst) :
    (∀ a b, pw_substance.name = some a → a ≠ "" →
      ts_substance.pretty_name = some b → b ≠ "" →
      pickName pw_substance ts_substance =
        .ok (if a.length ≤ b.length then a else b)) ∧
    (∀ a, pw_substance.name = some a → a ≠ "" →
      (ts_substance.pretty_name = none ∨ ts_substance.pretty_name = some "") →
      pickName pw_substance ts_substance = .ok a) ∧
    (∀ b, (pw_substance.name = none ∨ pw_substance.name = some "") →
      ts_substance.pretty_name = some b → b ≠ "" →
      pickName pw_substance ts_substance = .ok b) := by
  refine ⟨?_, ?_, ?_⟩
  · intro a b ha hae hb hbe
    have hal : 0 < a.length := strLenPos a hae
    have hbl : 0 < b.length := strLenPos b hbe
    simp [pickName, nameCandidates, ha, hb, pyMinByLen, hal, hbl]
    by_cases h : a.length ≤ b.length
    · simp [h, Nat.not_lt.mpr h]
    · have : b.length < a.length := Nat.lt_of_not_le h
      simp [h, this]
  · intro a ha hae hb
    have hal : 0 < a.length := strLenPos a hae
    rcases hb with hb | hb <;>
      simp [pickName, nameCandidates, ha, hb, pyMinByLen, hal]
  · intro b ha hb hbe
    have hbl : 0 < b.length := strLenPos b hbe
    rcases ha with ha | ha <;>
      simp [pickName, nameCandidates, ha, hb, pyMinByLen, hbl]

/-- C7 witness: between `LSD` and `Acid` the shorter `LSD` is chosen. -/
theorem pickName_shortest_witness :
    cex7Pw.name = some "LSD" ∧ cex7Ts.pretty_name = some "Acid" ∧
    pickName cex7Pw cex7Ts = .ok "LSD" := by
  refine ⟨rfl, rfl, ?_⟩
  have h := (pickName_shortest cex7Pw cex7Ts).1 "LSD" "Acid" rfl
    (by decide) rfl (by decide)
  simpa using h

/-- C4 (corrected): when every attempt fails the retry helper makes
exactly 3 attempts with a one-second sleep after each, and returns no
result; the call site then applies `len` to `None`, which raises, so
the run aborts instead of treating the substance as absent. In general
the helper never makes more than 3 attempts or sleeps. -/
theorem try_three_times_exhaust {α : Type} (f : Nat → Except String (List α))
    (hfail : ∀ i, i < 3 → ∃ e, f i = .error e) :
    try_three_times f = (none, 3, 3) ∧
    per_substance_query_len f =
      .error "TypeError: object of type NoneType has no len()" ∧
    ∀ (g : Nat → Except String (List α)),
      (try_three_times g).2.1 ≤ 3 ∧ (try_three_times g).2.2 ≤ 3 := by
  obtain ⟨e0, h0⟩ := hfail 0 (by omega)
  obtain ⟨e1, h1⟩ := hfail 1 (by omega)
  obtain ⟨e2, h2⟩ := hfail 2 (by omega)
  have hmain : try_three_times f = (none, 3, 3) := by
    simp [try_three_times, try_three_times_go, h0, h1, h2]
  refine ⟨hmain, ?_, ?_⟩
  · simp [per_substance_query_len, hmain, pyLen]
  · intro g
    exact try_three_times_go_le g 3 0

/-- C4 witness: a query failing on every attempt is retried three times
and leaves the call site with a TypeError. -/
theorem try_three_times_exhaust_witness :
    (∀ i, i < 3 → ∃ e, cex4Fail i = .error e) ∧
    try_three_times cex4Fail = (none, 3, 3) ∧
    per_substance_query_len cex4Fail =
      .error "TypeError: object of type NoneType has no len()" := by
  have h : ∀ i, i < 3 → ∃ e, cex4Fail i = .error e :=
    fun i _ => ⟨"network error", rfl⟩
  have hm := try_three_times_exhaust cex4Fail h
  exact ⟨h, hm.1, hm.2.1⟩

/-- C4 counterexample: the claim that the merge proceeds with an empty
record is false; after exhausting its 3 attempts the call site raises
a TypeError, aborting the run. -/
theorem retry_aborts_cex :
    try_three_times cex4Fail = (none, 3, 3) ∧
    per_substance_query_len cex4Fail =
      .error "TypeError: object of type NoneType has no len()" := by
  constructor
  · decide
  · decide

/-- C2 (corrected): the interactions transformer is the one field merger
that changes state: it rewrites only the `combos` field of the Source B
record (writing a display name into every non-ignored entry) and leaves
every other field untouched; with no combo data the record is returned
unchanged. -/
theorem mergeInteractions_frame (ts ts' : Subst) (r : Option (List Combo))
    (h : mergeInteractions ts = .ok (r, ts')) :
    ts'.url = ts.url ∧ ts'.name = ts.name ∧ ts'.pretty_name = ts.pretty_name ∧
    ts'.aliases = ts.aliases ∧ ts'.properties = ts.properties ∧
    ts'.links = ts.links ∧ ts'.data = ts.data ∧ ts'.roas = ts.roas ∧
    ts'.combos = ts.combos.map (List.map updateComboEntry) ∧
    (ts.combos = none → ts' = ts) := by
  cases hc : ts.combos with
  | none =>
    simp [mergeInteractions, hc] at h
    obtain ⟨-, h2⟩ := h
    subst h2
    simp [hc]
  | some cs =>
    cases cs with
    | nil =>
      simp [mergeInteractions, hc] at h
      obtain ⟨-, h2⟩ := h
      subst h2
      simp [hc]
    | cons kc rest =>
      cases hb : buildInteractions (kc :: rest) with
      | error e => simp [mergeInteractions, hc, hb, Bind.bind, Except.bind] at h
      | ok l =>
        simp [mergeInteractions, hc, hb, Bind.bind, Except.bind] at h
        obtain ⟨-, h2⟩ := h
        subst h2
        simp [hc]

/-- C2 counterexample: the interactions merger is not pure; on a record
with one `lsd` combo entry it returns a Source B record different from
its input (the entry gained a `name`). -/
theorem mergeInteractions_impure_cex :
    mergeInteractions cex2Ts = .ok (some [cex2Combo'], cex2Ts') ∧
    cex2Ts' ≠ cex2Ts := by
  constructor
  · decide
  · decide

/-- C2 witness: the frame theorem applied to the concrete mutated
record shows every field but `combos` is preserved. -/
theorem mergeInteractions_frame_witness :
    mergeInteractions cex2Ts = .ok (some [cex2Combo'], cex2Ts') ∧
    cex2Ts'.properties = cex2Ts.properties ∧ cex2Ts'.roas = cex2Ts.roas := by
  have h : mergeInteractions cex2Ts = .ok (some [cex2Combo'], cex2Ts') := by
    decide
  obtain ⟨-, -, -, -, hprops, -, -, hroas, -, -⟩ :=
    mergeInteractions_frame cex2Ts cex2Ts' (some [cex2Combo']) h
  exact ⟨h, hprops, hroas⟩

/-- C3 (corrected): an absent summary degrades to an absent output and a
missing alias list acts as an empty one, without raising; but the
interactions merger succeeds exactly when every non-ignored combo key is
in the fixed table (an unknown key raises KeyError), and name selection
succeeds exactly when some candidate is non-empty (otherwise it raises
ValueError). -/
theorem merger_failure_semantics :
    (∀ ts : Subst, ts.properties.bind Props.summary = none →
      extractSummary ts = none) ∧
    (∀ pw ts : Subst, ∀ nm : String,
      buildAliases { pw with aliases := none } ts nm =
        buildAliases { pw with aliases := some [] } ts nm) ∧
    (∀ (ts : Subst) (cs : List (String × Combo)), ts.combos = some cs →
      ((∃ x, mergeInteractions ts = .ok x) ↔
        ∀ kc ∈ cs, kc.1 ∈ ts_combo_ignore ∨
          (ts_combo_transformations.lookup kc.1).isSome = true)) ∧
    (∀ pw ts : Subst, (∃ c, pickName pw ts = .ok c) ↔
      nameCandidates pw ts ≠ []) := by
  refine ⟨?_, ?_, ?_, ?_⟩
  · intro ts h
    simp [extractSummary, h, pyStrip, normEmpty]
  · intro pw ts nm
    simp [buildAliases, aliasPool]
  · intro ts cs hc
    cases cs with
    | nil =>
      simp [mergeInteractions, hc]
    | cons kc rest =>
      cases hb : buildInteractions (kc :: rest) with
      | error e =>
        rw [← buildInteractions_ok_iff]
        constructor
        · rintro ⟨x, hx⟩
          simp [mergeInteractions, hc, hb, Bind.bind, Except.bind] at hx
        · rintro ⟨l, hl⟩
          rw [hb] at hl
          exact absurd hl (by simp)
      | ok l =>
        rw [← buildInteractions_ok_iff]
        constructor
        · intro _
          exact ⟨l, hb⟩
        · intro _
          refine ⟨?_, ?_⟩
          · exact (some (List.insertionSort
              (fun a b => pyStrLe (a.name.getD "") (b.name.getD "") = true) l),
              { ts with combos := some ((kc :: rest).map updateComboEntry) })
          · simp [mergeInteractions, hc, hb, Bind.bind, Except.bind]
  · intro pw ts
    cases hN : nameCandidates pw ts with
    | nil => simp [pickName, hN, pyMinByLen]
    | cons x xs => simp [pickName, hN, pyMinByLen]

/-- C3 witness: the summary merger on the empty record degrades to an
absent summary without error. -/
theorem merger_failure_semantics_witness :
    emptySubst.properties.bind Props.summary = none ∧
    extractSummary emptySubst = none :=
  ⟨rfl, merger_failure_semantics.1 emptySubst rfl⟩

/-- C3 counterexample: the field mergers can raise. A Source B record
whose pretty name is the empty string and that is alone in the merge
raises ValueError in name selection, and a combo key outside the table
raises KeyError. -/
theorem merger_raises_cex :
    reconcile [] [cex3TsEmptyPretty] =
      .error "ValueError: min() arg is an empty sequence" ∧
    mergeInteractions cex3TsBadKey = .error "KeyError: weird" := by
  constructor
  · decide
  · decide

/-- C8 (confirmed): the merged alias list is strictly ascending and
duplicate-free, holds exactly the lowercased non-empty names drawn from
the Source A name, Source B pretty name and both alias lists minus the
lowercased chosen name, and therefore never contains the lowercased
chosen name; every emitted record carries exactly this list. -/
theorem buildAliases_spec :
    (∀ pw ts : Subst, ∀ nm : String, (buildAliases pw ts nm).Pairwise
        (fun a b => pyStrLe a b = true ∧ a ≠ b)) ∧
    (∀ pw ts : Subst, ∀ nm a : String, a ∈ buildAliases pw ts nm ↔
      ((∃ s, ((pw.name = some s ∨ ts.pretty_name = some s) ∨
          s ∈ pw.aliases.getD [] ∨ s ∈ ts.aliases.getD []) ∧ s ≠ "" ∧
          a = pyLower s) ∧ a ≠ pyLower nm)) ∧
    (∀ pw ts : Subst, ∀ nm : String, pyLower nm ∉ buildAliases pw ts nm) ∧
    (∀ pw ts : Subst, ∀ c : Canonical, mergeFound pw ts = .ok (some c) →
      c.aliases = buildAliases pw ts c.name ∧ pyLower c.name ∉ c.aliases) := by
  have hmem := buildAliases_mem
  have hnotin : ∀ pw ts : Subst, ∀ nm : String,
      pyLower nm ∉ buildAliases pw ts nm := by
    intro pw ts nm hx
    exact ((hmem pw ts nm (pyLower nm)).mp hx).2 rfl
  have hpair : ∀ pw ts : Subst, ∀ nm : String, (buildAliases pw ts nm).Pairwise
      (fun a b => pyStrLe a b = true ∧ a ≠ b) := by
    intro pw ts nm
    have h1 := sortStrings_sorted
      (((aliasPool pw ts).dedup).filter (fun a => a ≠ pyLower nm))
    have hnd : (buildAliases pw ts nm).Nodup := by
      rw [buildAliases, (sortStrings_perm _).nodup_iff]
      exact (List.nodup_dedup _).filter _
    exact List.Pairwise.and h1 hnd
  refine ⟨hpair, hmem, hnotin, ?_⟩
  intro pw ts c h
  obtain ⟨nm, -, hname, hal, -, -⟩ := mergeFound_ok_some pw ts c h
  subst hname
  exact ⟨hal, by rw [hal]; exact hnotin pw ts c.name⟩

/-- C8 witness: a concrete merged pair whose emitted aliases are the
sorted lowercased union minus the chosen name. -/
theorem buildAliases_spec_witness :
    mergeFound cex8Pw cex8Ts = .ok (some cex8Out) ∧
    cex8Out.aliases = buildAliases cex8Pw cex8Ts cex8Out.name ∧
    pyLower cex8Out.name ∉ cex8Out.aliases := by
  have h : mergeFound cex8Pw cex8Ts = .ok (some cex8Out) := by decide
  have h2 := buildAliases_spec.2.2.2 cex8Pw cex8Ts cex8Out h
  exact ⟨h, h2.1, h2.2⟩

/-- C6 (confirmed): every emitted record has a non-empty route list, and
any emitting loop iteration takes its routes exactly from the matched
Source A record with the null-duration routes removed (Source B
contributes none). -/
theorem reconcile_roas_spec :
    (∀ (pwL tsL : List Subst) (out : List Canonical),
      reconcile pwL tsL = .ok out → ∀ c ∈ out, c.roas ≠ []) ∧
    (∀ (pwL tsL : List Subst) (n : String) (c : Canonical)
      (l1 l2 : List Subst), mergeName pwL tsL n = .ok (some c, l1, l2) →
      ∃ p, find_substance_in_data pwL n = some p ∧
        c.roas = durationFilter (p.roas.getD []) ∧ c.roas ≠ []) := by
  constructor
  · intro pwL tsL out h
    exact reconcileFrom_roas _ pwL tsL out h
  · intro pwL tsL n c l1 l2 h
    exact mergeName_emitted pwL tsL n c l1 l2 h

/-- C6 witness: one full Source A record is emitted with its single
route kept. -/
theorem reconcile_roas_spec_witness :
    reconcile [cex6Pw] [] = .ok [cex6Out] ∧ cex6Out.roas ≠ [] := by
  have h : reconcile [cex6Pw] [] = .ok [cex6Out] := by decide
  exact ⟨h, reconcile_roas_spec.1 [cex6Pw] [] [cex6Out] h cex6Out (by simp)⟩

/-- C10 (confirmed): the iteration name set is strictly ascending and
duplicate-free and holds exactly the lowercased primary names of both
sources, so names differing only in case collapse to one entry; the
emitted records follow this sorted order (their iteration names form a
sublist of it) and the plain output is the annotated output with the
names dropped. -/
theorem reconcile_order_spec :
    (∀ pwL tsL : List Subst, (all_substance_names pwL tsL).Pairwise
        (fun a b => pyStrLe a b = true ∧ a ≠ b)) ∧
    (∀ (pwL tsL : List Subst) (n : String),
      n ∈ all_substance_names pwL tsL ↔
        ∃ s, (s ∈ pwL ∨ s ∈ tsL) ∧ pyLower (s.name.getD "") = n) ∧
    (∀ (pwL tsL : List Subst) (out : List (String × Canonical)),
      reconcileA pwL tsL = .ok out →
        (out.map Prod.fst).Sublist (all_substance_names pwL tsL) ∧
        reconcile pwL tsL = .ok (out.map Prod.snd)) := by
  refine ⟨all_substance_names_pairwise, all_substance_names_mem, ?_⟩
  intro pwL tsL out h
  constructor
  · exact reconcileFromA_fst_sublist _ pwL tsL out h
  · rw [reconcile, reconcileFrom_eq_mapA]
    rw [reconcileA] at h
    rw [h]
    rfl

/-- C10 witness: one Source A record named `Foo` is visited at the
lowercased iteration name `foo` and emitted in that order. -/
theorem reconcile_order_spec_witness :
    reconcileA [cex6Pw] [] = .ok [("foo", cex6Out)] ∧
    ([("foo", cex6Out)].map Prod.fst).Sublist
      (all_substance_names [cex6Pw] []) ∧
    reconcile [cex6Pw] [] = .ok [cex6Out] := by
  have h : reconcileA [cex6Pw] [] = .ok [("foo", cex6Out)] := by decide
  have h2 := reconcile_order_spec.2.2 [cex6Pw] [] _ h
  exact ⟨h, h2.1, by simpa using h2.2⟩

/-- C1 (corrected): the loop emits at most one record per iteration
name: the iteration names of emitted records are pairwise distinct, and
two emitted records whose chosen names each lowercase to their own
iteration name have different names. Global uniqueness of the chosen
display names themselves fails (see the counterexample). -/
theorem reconcileA_emitted_names_distinct (pwL tsL : List Subst)
    (out : List (String × Canonical)) (h : reconcileA pwL tsL = .ok out) :
    out.Pairwise (fun p q => p.1 ≠ q.1 ∧
      (pyLower p.2.name = p.1 → pyLower q.2.name = q.1 →
        p.2.name ≠ q.2.name)) := by
  have hsub := reconcileFromA_fst_sublist _ pwL tsL out h
  have hpw := (all_substance_names_pairwise pwL tsL).sublist hsub
  have hp2 := List.pairwise_map.mp hpw
  refine hp2.imp ?_
  intro p q hpq
  refine ⟨hpq.2, ?_⟩
  intro h1 h2 hEq
  exact hpq.2 (by rw [← h1, ← h2, hEq])

/-- C1 witness: on a two-record run the emitted iteration names are
distinct and satisfy the pairwise property. -/
theorem reconcileA_emitted_names_distinct_witness :
    reconcileA [cex1PwA, cex1PwB] [cex1Ts] =
      .ok [("0z", cex1OutA), ("a", cex1OutB)] ∧
    List.Pairwise (fun p q : String × Canonical => p.1 ≠ q.1 ∧
      (pyLower p.2.name = p.1 → pyLower q.2.name = q.1 →
        p.2.name ≠ q.2.name)) [("0z", cex1OutA), ("a", cex1OutB)] := by
  have h : reconcileA [cex1PwA, cex1PwB] [cex1Ts] =
      .ok [("0z", cex1OutA), ("a", cex1OutB)] := by decide
  exact ⟨h, reconcileA_emitted_names_distinct _ _ _ h⟩

/-- C1 counterexample: two records emitted at the distinct iteration
names `0z` and `a` both carry the chosen display name `A`, refuting
display-name uniqueness. -/
theorem reconcile_same_name_cex :
    (reconcileA [cex1PwA, cex1PwB] [cex1Ts]).map
        (fun l => l.map (fun p => (p.1, p.2.name))) =
      .ok [("0z", "A"), ("a", "A")] ∧
    (reconcile [cex1PwA, cex1PwB] [cex1Ts]).map
        (fun l => l.map Canonical.name) = .ok ["A", "A"] := by
  constructor
  · decide
  · decide

end Scrape
